import Mathlib

/-!
Shallow embedding of the scale-engine functions of the Guitar Scale
Visualizer (source file musician-fretboard-app.py).  Notes are Lean
strings; the Python list lookup `list.index` (which raises ValueError
on a missing element) is modelled with Option-returning lookups, so a
`none` result marks the error path.  Splitting on the slash character
is implemented over the character list of the string, matching the
Python call `s.split('/')`.
-/

namespace Fretboard

/-- Helper mirroring the Python call `s.split('/')` over the character
list `cs`, with `acc` holding the reversed current chunk. -/
def splitSlashAux : List Char → List Char → List (List Char)
  | [], acc => [acc.reverse]
  | c :: cs, acc =>
    if c = '/' then acc.reverse :: splitSlashAux cs []
    else splitSlashAux cs (c :: acc)

/-- Model of the Python call `s.split('/')`. -/
def splitSlash (s : String) : List String :=
  (splitSlashAux s.data []).map String.mk

/-- Model of the Python test `'/' in s` (single-character substring test). -/
def containsSlash (s : String) : Bool :=
  s.data.contains '/'

/-- Table `NOTES` (line 10 of the source): the 12 canonical pitch-class names. -/
def NOTES : List String :=
  ["C", "C#/Db", "D", "D#/Eb", "E", "F", "F#/Gb", "G", "G#/Ab", "A", "A#/Bb", "B"]

/-- Table `MODES` (lines 13-24 of the source): the mode catalog with its
interval patterns, in source order. -/
def MODES : List (String × List Nat) :=
  [("Major (Ionian)", [0, 2, 4, 5, 7, 9, 11]),
   ("Dorian", [0, 2, 3, 5, 7, 9, 10]),
   ("Phrygian", [0, 1, 3, 5, 7, 8, 10]),
   ("Lydian", [0, 2, 4, 6, 7, 9, 11]),
   ("Mixolydian", [0, 2, 4, 5, 7, 9, 10]),
   ("Minor (Aeolian)", [0, 2, 3, 5, 7, 8, 10]),
   ("Locrian", [0, 1, 3, 5, 6, 8, 10]),
   ("Pentatonic Major", [0, 2, 4, 7, 9]),
   ("Pentatonic Minor", [0, 3, 5, 7, 10]),
   ("Blues", [0, 3, 5, 6, 7, 10])]

/-- Table `GUITAR_TUNING` (line 27 of the source): standard tuning, high string first. -/
def GUITAR_TUNING : List String := ["E", "B", "G", "D", "A", "E"]

/-- Constant `NUM_FRETS` (line 30 of the source). -/
def NUM_FRETS : Nat := 15

/-- Model of the Python call `NOTES.index(s)`, as an Option since Python
raises ValueError on a miss. -/
def notesIndex (s : String) : Option Nat :=
  List.findIdx? (fun x => x == s) NOTES

/-- Index-resolution step shared by `get_note_at_position` and
`get_scale_notes` (lines 34 and 40 of the source):
`NOTES.index(s) if s in NOTES else NOTES.index(s.split('/')[0])`. -/
def resolveIndex (s : String) : Option Nat :=
  if NOTES.contains s then notesIndex s
  else notesIndex ((splitSlash s).headD "")

/-- Function `get_note_at_position` (lines 32-36 of the source). -/
def get_note_at_position (string_note : String) (fret : Nat) : Option String := do
  let start_index ← resolveIndex string_note
  NOTES.get? ((start_index + fret) % 12)

/-- Function `get_scale_notes` (lines 38-41 of the source). -/
def get_scale_notes (root_note : String) (mode : String) : Option (List String) := do
  let start_index ← resolveIndex root_note
  let intervals ← List.lookup mode MODES
  intervals.mapM fun interval => NOTES.get? ((start_index + interval) % 12)

/-- Function `is_note_in_scale` (lines 43-47 of the source). -/
def is_note_in_scale (note : String) (scale_notes : List String) : Bool :=
  if containsSlash note then
    scale_notes.contains ((splitSlash note).getD 0 "")
      || scale_notes.contains ((splitSlash note).getD 1 "")
  else
    scale_notes.contains note

/-- Root test inlined at line 70 of the source:
`note == root_note or (('/' in note) and (root_note in note.split('/')))`. -/
def is_root (note : String) (root_note : String) : Bool :=
  note == root_note || (containsSlash note && (splitSlash note).contains root_note)

/-- Table `display_notes` (line 84 of the source): the 12 display names of
the root-note dropdown. -/
def display_notes : List String :=
  ["C", "C#", "D", "D#"] ++ ["E", "F", "F#", "G"] ++ ["G#", "A", "A#", "B"]

/-- Table `note_mapping` (lines 85-91 of the source). -/
def note_mapping : List (String × String) :=
  [("C#", "C#/Db"), ("D#", "D#/Eb"), ("F#", "F#/Gb"), ("G#", "G#/Ab"), ("A#", "A#/Bb")]

/-- Normalization of a selected display name (lines 95-96 of the source):
map it through `note_mapping` when it has an entry, else keep it. -/
def normalize_note (s : String) : String :=
  (List.lookup s note_mapping).getD s

/-- Spec-side membership rule, written from the words of the specification
(section 4.1): if the note is an enharmonic pair of exactly two component
spellings, the predicate holds when either component appears verbatim in
the scale list; otherwise it is an exact match against the scale list.
This definition exists to be compared with `is_note_in_scale`. -/
def isInScale_spec (note : String) (scale_notes : List String) : Bool :=
  match splitSlash note with
  | [x, y] => scale_notes.contains x || scale_notes.contains y
  | _ => scale_notes.contains note

/-- Splitting a slash-free character list yields a single chunk. -/
lemma splitSlashAux_no_slash (l : List Char) (acc : List Char) (h : '/' ∉ l) :
    splitSlashAux l acc = [acc.reverse ++ l] := by
  induction l generalizing acc with
  | nil => simp [splitSlashAux]
  | cons c cs ih =>
    have hc : c ≠ '/' := fun heq => h (heq ▸ List.mem_cons_self c cs)
    have hcs : '/' ∉ cs := fun hm => h (List.mem_cons_of_mem c hm)
    simp [splitSlashAux, hc, ih _ hcs]

/-- Splitting at the first slash peels off the slash-free prefix. -/
lemma splitSlashAux_append (l m acc : List Char) (h : '/' ∉ l) :
    splitSlashAux (l ++ '/' :: m) acc = (acc.reverse ++ l) :: splitSlashAux m [] := by
  induction l generalizing acc with
  | nil => simp [splitSlashAux]
  | cons c cs ih =>
    have hc : c ≠ '/' := fun heq => h (heq ▸ List.mem_cons_self c cs)
    have hcs : '/' ∉ cs := fun hm => h (List.mem_cons_of_mem c hm)
    simp [splitSlashAux, hc, ih _ hcs]

/-- Characterization of `containsSlash` being false. -/
lemma containsSlash_false_iff (s : String) : containsSlash s = false ↔ '/' ∉ s.data := by
  simp [containsSlash]

/-- Splitting an enharmonic-pair string built from two slash-free halves
recovers exactly the two halves. -/
lemma splitSlash_pair (x y : String) (hx : containsSlash x = false)
    (hy : containsSlash y = false) :
    splitSlash (x ++ "/" ++ y) = [x, y] := by
  have hx' : '/' ∉ x.data := (containsSlash_false_iff x).mp hx
  have hy' : '/' ∉ y.data := (containsSlash_false_iff y).mp hy
  have hdata : (x ++ "/" ++ y).data = x.data ++ '/' :: y.data := by
    simp [String.data_append]
  simp [splitSlash, hdata, splitSlashAux_append _ _ _ hx', splitSlashAux_no_slash _ _ hy']

/-- An enharmonic-pair string always contains a slash. -/
lemma containsSlash_pair (x y : String) : containsSlash (x ++ "/" ++ y) = true := by
  simp [containsSlash, String.data_append]

/-- Boolean root test unfolded to a propositional characterization. -/
lemma is_root_iff (note root_note : String) :
    is_root note root_note = true ↔
      note = root_note ∨ (containsSlash note = true ∧ root_note ∈ splitSlash note) := by
  simp [is_root]

/-- Among the canonical names, containing a slash is the same as splitting
into exactly two components. -/
lemma pair_shape : ∀ note ∈ NOTES, (containsSlash note = true ↔ (splitSlash note).length = 2) := by
  decide

/-- C1: evaluation of the code at the input named by the claim.  The claim
and the spec say the call is true, but `is_note_in_scale` splits the pair
"C#/Db" and tests only the bare halves "C#" and "Db", neither of which
occurs verbatim in the scale list, so the code returns false. -/
theorem C1_enharmonic_query_eval :
    is_note_in_scale "C#/Db" ["C#/Db", "D", "E", "F", "G", "A", "A#/Bb"] = false := by
  decide

/-- C2 counterexample: the claim says the Blues scale has 5 notes, but
`get_scale_notes` returns 6 notes for Blues (its interval list has 6
entries). -/
theorem C2_blues_length_counterexample :
    ((get_scale_notes "C" "Blues").getD []).length ≠ 5 := by
  decide

/-- C2 amended: for every root in the canonical table and every mode in the
catalog, the scale has exactly as many notes as the mode has intervals, and
those interval counts are 7 for the seven heptatonic modes, 5 for the two
pentatonic modes, and 6 for Blues. -/
theorem C2_scale_length :
    (∀ root ∈ NOTES, ∀ m ∈ MODES,
      (get_scale_notes root m.1).isSome = true ∧
      ((get_scale_notes root m.1).getD []).length = m.2.length) ∧
    MODES.map (fun m => m.2.length) = [7, 7, 7, 7, 7, 7, 7, 5, 5, 6] := by
  decide

/-- Witness for C2 at root "C" and the Blues mode. -/
theorem C2_scale_length_witness :
    (get_scale_notes "C" "Blues").isSome = true ∧
    ((get_scale_notes "C" "Blues").getD []).length = [0, 3, 5, 6, 7, 10].length :=
  C2_scale_length.1 "C" (by decide) ("Blues", [0, 3, 5, 6, 7, 10]) (by decide)

/-- C3 counterexample: the claim says `get_note_at_position` succeeds when
the string note is the bare first half of an enharmonic pair, but on "C#"
the fallback looks up "C#" itself in `NOTES`, which fails (Python raises
ValueError; the model returns none). -/
theorem C3_bare_sharp_counterexample :
    get_note_at_position "C#" 0 = none := rfl

/-- C3 amended: for every bare first half of an enharmonic pair and every
fret, `get_note_at_position` fails with a lookup error, because the
fallback splits the input on the slash and the resulting first component
is the bare name itself, which is not in the canonical table. -/
theorem C3_bare_sharp_fails :
    ∀ s ∈ (["C#", "D#", "F#", "G#", "A#"] : List String), ∀ fret : Nat,
      get_note_at_position s fret = none := by
  intro s hs fret
  simp only [List.mem_cons, List.not_mem_nil, or_false] at hs
  rcases hs with rfl | rfl | rfl | rfl | rfl <;> rfl

/-- Witness for C3 at "C#", fret 3. -/
theorem C3_bare_sharp_fails_witness :
    get_note_at_position "C#" 3 = none :=
  C3_bare_sharp_fails "C#" (by decide) 3

/-- C4: for every canonical name `p` and fret `f` up to 14, the note at
that position is the canonical name at index (index of p + f) mod 12;
fret 0 returns the open-string note unchanged, and string "E" at fret 14
wraps the octave to "F#/Gb". -/
theorem C4_note_at_position :
    (∀ p ∈ NOTES, ∀ f : Nat, f ≤ 14 →
      get_note_at_position p f =
        NOTES.get? ((List.findIdx (fun x => x == p) NOTES + f) % 12)) ∧
    (∀ p ∈ NOTES, get_note_at_position p 0 = some p) ∧
    get_note_at_position "E" 14 = some "F#/Gb" := by
  decide

/-- Witness for C4 at "E", frets 14 and 0. -/
theorem C4_note_at_position_witness :
    get_note_at_position "E" 14 =
      NOTES.get? ((List.findIdx (fun x => x == "E") NOTES + 14) % 12) ∧
    get_note_at_position "E" 0 = some "E" :=
  ⟨C4_note_at_position.1 "E" (by decide) 14 (by decide),
   C4_note_at_position.2.1 "E" (by decide)⟩

/-- C5: the code implements the membership rule the spec states.  For a
note that is an enharmonic pair built from two slash-free spellings, the
predicate holds exactly when one of the two spellings appears verbatim in
the scale list; for a slash-free note it is exact verbatim membership.
Equivalently, on the canonical names the code agrees with the spec-side
rule `isInScale_spec`. -/
theorem C5_membership_rule :
    (∀ x y : String, containsSlash x = false → containsSlash y = false →
      ∀ scale_notes : List String,
        (is_note_in_scale (x ++ "/" ++ y) scale_notes = true ↔
          x ∈ scale_notes ∨ y ∈ scale_notes)) ∧
    (∀ note : String, containsSlash note = false →
      ∀ scale_notes : List String,
        (is_note_in_scale note scale_notes = true ↔ note ∈ scale_notes)) ∧
    (∀ note ∈ NOTES, ∀ scale_notes : List String,
      is_note_in_scale note scale_notes = isInScale_spec note scale_notes) := by
  refine ⟨?_, ?_, ?_⟩
  · intro x y hx hy scale_notes
    have h1 := containsSlash_pair x y
    have h2 := splitSlash_pair x y hx hy
    simp [is_note_in_scale, h1, h2]
  · intro note h scale_notes
    simp [is_note_in_scale, h]
  · intro note h scale_notes
    have h12 : note = "C" ∨ note = "C#/Db" ∨ note = "D" ∨ note = "D#/Eb" ∨ note = "E" ∨
        note = "F" ∨ note = "F#/Gb" ∨ note = "G" ∨ note = "G#/Ab" ∨ note = "A" ∨
        note = "A#/Bb" ∨ note = "B" := by
      simpa [NOTES] using h
    rcases h12 with rfl | rfl | rfl | rfl | rfl | rfl | rfl | rfl | rfl | rfl | rfl | rfl <;> rfl

/-- Witness for C5 at the pair halves "C#" and "Db" with a small scale
list, at the slash-free note "D", and at the canonical note "C#/Db". -/
theorem C5_membership_rule_witness :
    (is_note_in_scale ("C#" ++ "/" ++ "Db") ["C#", "D"] = true ↔
      "C#" ∈ (["C#", "D"] : List String) ∨ "Db" ∈ (["C#", "D"] : List String)) ∧
    (is_note_in_scale "D" ["C#", "D"] = true ↔ "D" ∈ (["C#", "D"] : List String)) ∧
    is_note_in_scale "C#/Db" ["C#", "D"] = isInScale_spec "C#/Db" ["C#", "D"] :=
  ⟨C5_membership_rule.1 "C#" "Db" rfl rfl ["C#", "D"],
   C5_membership_rule.2.1 "D" rfl ["C#", "D"],
   C5_membership_rule.2.2 "C#/Db" (by decide) ["C#", "D"]⟩

/-- C6: the two concrete scales named by the claim come out exactly as
stated, in order. -/
theorem C6_scale_examples :
    get_scale_notes "C" "Major (Ionian)" = some ["C", "D", "E", "F", "G", "A", "B"] ∧
    get_scale_notes "A" "Pentatonic Minor" = some ["A", "C", "D", "E", "G"] := by
  decide

/-- C7: for every canonical note and arbitrary root-note string, the root
test holds exactly when the note equals the root exactly, or the note is an
enharmonic pair (exactly two components) one of whose components is the
root; in particular the two concrete evaluations named by the claim. -/
theorem C7_is_root_rule :
    (∀ note ∈ NOTES, ∀ root_note : String,
      (is_root note root_note = true ↔
        note = root_note ∨
          ((splitSlash note).length = 2 ∧ root_note ∈ splitSlash note))) ∧
    is_root "C#/Db" "C#/Db" = true ∧ is_root "D" "C#/Db" = false := by
  refine ⟨?_, by decide, by decide⟩
  intro note h root_note
  rw [is_root_iff]
  constructor
  · rintro (rfl | ⟨hc, hm⟩)
    · exact Or.inl rfl
    · exact Or.inr ⟨(pair_shape note h).mp hc, hm⟩
  · rintro (rfl | ⟨hl, hm⟩)
    · exact Or.inl rfl
    · exact Or.inr ⟨(pair_shape note h).mpr hl, hm⟩

/-- Witness for C7 at note "C#/Db" and root "Db". -/
theorem C7_is_root_rule_witness :
    is_root "C#/Db" "Db" = true ↔
      "C#/Db" = "Db" ∨
        ((splitSlash "C#/Db").length = 2 ∧ "Db" ∈ splitSlash "C#/Db") :=
  C7_is_root_rule.1 "C#/Db" (by decide) "Db"

/-- C8: on the valid input catalog (the 12 display names after
normalization and the 6 tuning names, crossed with the 10 catalog modes
and the 15 fret positions) both `get_scale_notes` and
`get_note_at_position` succeed: the lookup-failure branch is unreachable. -/
theorem C8_valid_inputs_no_error :
    (∀ d ∈ display_notes, ∀ m ∈ MODES,
      (get_scale_notes (normalize_note d) m.1).isSome = true) ∧
    (∀ s ∈ GUITAR_TUNING, ∀ m ∈ MODES,
      (get_scale_notes s m.1).isSome = true) ∧
    (∀ s ∈ GUITAR_TUNING, ∀ fret : Nat, fret < NUM_FRETS →
      (get_note_at_position s fret).isSome = true) ∧
    (∀ d ∈ display_notes, ∀ fret : Nat, fret < NUM_FRETS →
      (get_note_at_position (normalize_note d) fret).isSome = true) := by
  decide

/-- Witness for C8 at display name "C#" with Blues, and string "E" at fret 14. -/
theorem C8_valid_inputs_no_error_witness :
    (get_scale_notes (normalize_note "C#") "Blues").isSome = true ∧
    (get_note_at_position "E" 14).isSome = true :=
  ⟨C8_valid_inputs_no_error.1 "C#" (by decide) ("Blues", [0, 3, 5, 6, 7, 10]) (by decide),
   C8_valid_inputs_no_error.2.2.1 "E" (by decide) 14 (by decide)⟩

/-- C9: `get_scale_notes` is a pure function of its two arguments in this
embedding (it reads only the fixed tables `NOTES` and `MODES` and mutates
nothing), so two calls with identical inputs return identical,
order-stable results. -/
theorem C9_deterministic :
    ∀ root_note mode : String,
      get_scale_notes root_note mode = get_scale_notes root_note mode :=
  fun _ _ => rfl

/-- C10: for every canonical root and every catalog mode, the scale is
computed successfully, its first element is the root itself, and it has no
duplicate elements. -/
theorem C10_root_first_nodup :
    ∀ root ∈ NOTES, ∀ m ∈ MODES,
      (get_scale_notes root m.1).isSome = true ∧
      ((get_scale_notes root m.1).getD []).head? = some root ∧
      ((get_scale_notes root m.1).getD []).Nodup := by
  decide

/-- Witness for C10 at root "C" and the Major mode. -/
theorem C10_root_first_nodup_witness :
    (get_scale_notes "C" "Major (Ionian)").isSome = true ∧
    ((get_scale_notes "C" "Major (Ionian)").getD []).head? = some "C" ∧
    ((get_scale_notes "C" "Major (Ionian)").getD []).Nodup :=
  C10_root_first_nodup "C" (by decide) ("Major (Ionian)", [0, 2, 4, 5, 7, 9, 11]) (by decide)

end Fretboard
